import Mathlib

/-!
Verification of the host-assignment engine of uriparser
(`uriInternalSetHostMm` in `src/UriSetHostCommon.c`).

The engine is embedded shallowly: the C function becomes a pure Lean
function from a URI value, a host type, the new range and a collaborator
environment to an outcome record.  Pointers are modelled as `Option Nat`
(`none` is the C `NULL`).  The collaborator capabilities that live outside
`UriSetHostCommon.c` (syntax validators, ownership promoter, range
materializer, path/host-ambiguity resolver, allocator outcomes) are
supplied by an environment record `Collab`; their contracts follow the
specification.  The outcome records the returned error code, the URI after
the call, every argument passed to `memory->free` (in order), every
pointer obtained from `memory->malloc` inside the engine itself, and
whether the ownership promoter / path resolver were invoked.
-/

namespace UriSetHost

/-- An abstract C pointer: `none` models `NULL`. -/
abbrev Ptr := Option Nat

/-- `UriTextRangeA`: a half-open range of characters `[first, afterLast)`. -/
structure TextRange where
  first : Ptr
  afterLast : Ptr
deriving DecidableEq

/-- `UriHostDataA`: the auxiliary host data.  The binary IPv4/IPv6 records
are modelled as the pointer to the allocation together with the octet
contents stored in it. -/
structure HostData where
  ip4 : Option (Nat × List Nat)
  ip6 : Option (Nat × List Nat)
  ipFuture : TextRange
deriving DecidableEq

/-- `UriUriA`: the URI value object (the fields the engine can observe or
mutate; the path is abstracted to its two list head/tail pointers). -/
structure Uri where
  scheme : TextRange
  userInfo : TextRange
  hostText : TextRange
  hostData : HostData
  portText : TextRange
  pathHead : Ptr
  pathTail : Ptr
  absolutePath : Bool
  owner : Bool
deriving DecidableEq

/-- `UriHostType`: the four host kinds accepted by the engine. -/
inductive UriHostType where
  | ip4
  | ip6
  | ipFuture
  | regName
deriving DecidableEq

/-- The error taxonomy of the engine (`URI_SUCCESS`, `URI_ERROR_NULL`,
`URI_ERROR_SYNTAX`, `URI_ERROR_MALLOC`, `URI_ERROR_SETHOST_USERINFO_SET`,
`URI_ERROR_SETHOST_PORT_SET`). -/
inductive UriError where
  | success
  | errNull
  | syntaxErr
  | mallocErr
  | userInfoSetErr
  | portSetErr
deriving DecidableEq

/-- Result of a validator that may itself allocate
(`IsWellFormedHostIp6Mm` / `IsWellFormedHostIpFutureMm`); the engine
asserts that only these three outcomes occur. -/
inductive ValRes where
  | ok
  | bad
  | oom
deriving DecidableEq

/-- Modelled from the spec: the value of one RFC 3986 `dec-octet`
(one to three digits, value at most 255, no leading zero), or `none`
if the text is not a well-formed `dec-octet`. -/
def decOctetValue (s : List Char) : Option Nat :=
  if s.length = 0 ∨ 3 < s.length then none
  else if ¬ s.all (fun c => c.isDigit) then none
  else if 1 < s.length ∧ s.headD '0' = '0' then none
  else
    let v := s.foldl (fun acc c => acc * 10 + (c.toNat - 48)) 0
    if v ≤ 255 then some v else none

/-- Modelled from the spec: the IPv4 binary parser
(`uriParseIpFourAddress`, not part of this file's source): a dotted
quad of four `dec-octet`s becomes the list of its four octet values. -/
def ParseIpFourAddress (s : List Char) : Option (List Nat) :=
  match (s.splitOn '.').mapM decOctetValue with
  | some parts => if parts.length = 4 then some parts else none
  | none => none

/-- Modelled from the spec: the IPv4 host-syntax validator
(`uriIsWellFormedHostIp4`, not part of this file's source): the text is
well-formed exactly when the binary parser accepts it. -/
def IsWellFormedHostIp4 (s : List Char) : Bool :=
  (ParseIpFourAddress s).isSome

/-- Modelled from the spec: the collaborator capabilities consumed by the
engine at its call boundary, together with the contents of memory.
`memValid` is the outcome of the allocator's structural validation;
`read` gives the characters stored in a text range; `makeOwner` is the
ownership promoter (all-or-nothing, `none` on allocation failure);
`copyRange` is the range materializer (returns the materialized range, or
`none` on allocation failure); `mallocIp4`/`mallocIp6` are the outcomes of
the engine's two direct allocations; `parseIp6` is the IPv6 binary parser
(`none` models its allocation failure); `ensurePath` is the
path/host-ambiguity resolver (success flag and possibly path-mutated
URI). -/
structure Collab where
  memValid : Bool
  read : TextRange → List Char
  wfIp6 : List Char → ValRes
  wfIpFuture : List Char → ValRes
  wfRegName : List Char → Bool
  makeOwner : Uri → Option Uri
  copyRange : TextRange → Option TextRange
  mallocIp4 : Option Nat
  mallocIp6 : Option Nat
  parseIp6 : List Char → Option (List Nat)
  ensurePath : Uri → Bool × Uri

/-- Everything one call of the engine produces: return code, the URI after
the call, the arguments of every `memory->free` call in order, the pointers
returned by the engine's own `memory->malloc` calls, and whether the
ownership promoter / path resolver were invoked. -/
structure SetHostOutcome where
  ret : UriError
  uri : Uri
  freed : List Ptr
  malloced : List Nat
  makeOwnerCalled : Bool
  ensurePathCalled : Bool
deriving DecidableEq

/-- Lines 155-160: null out `hostText` and all of `hostData`. -/
def clearHostFields (u : Uri) : Uri :=
  { u with hostText := ⟨none, none⟩,
           hostData := ⟨none, none, ⟨none, none⟩⟩ }

/-- Modelled from the spec: `uriHasHost` (defined outside this file's
source): a URI has a host exactly when `hostText` is present. -/
def HasHost (u : Uri) : Bool :=
  u.hostText.first.isSome

/-- The pointer stored in the `ip4` field (`NULL` when absent). -/
def ip4Ptr (h : HostData) : Ptr :=
  h.ip4.map Prod.fst

/-- The pointer stored in the `ip6` field (`NULL` when absent). -/
def ip6Ptr (h : HostData) : Ptr :=
  h.ip6.map Prod.fst

/-- Lines 251-268, the stale-data cleanup over the snapshot `old`: the
IPvFuture aliasing range is freed once (skipping the `hostText` free),
else `hostText` is freed, each only if `old.owner` and the range is
non-empty; the old binary records are passed to `free` unconditionally. -/
def cleanupFrees (old : Uri) : List Ptr :=
  (if old.hostData.ipFuture.first ≠ none then
    (if old.owner = true ∧
        old.hostData.ipFuture.first ≠ old.hostData.ipFuture.afterLast then
      [old.hostData.ipFuture.first]
    else [])
   else if old.hostText.first ≠ none then
    (if old.owner = true ∧ old.hostText.first ≠ old.hostText.afterLast then
      [old.hostText.first]
    else [])
   else [])
  ++ [ip4Ptr old.hostData, ip6Ptr old.hostData]

/-- Lines 168-169, 182-183, 196-197, 218-219, 230-231: restore
`hostText` and `hostData` from the snapshot. -/
def restoreHost (u old : Uri) : Uri :=
  { u with hostText := old.hostText, hostData := old.hostData }

/-- Lines 162-174 plus the cleanup: the removal path (`first == NULL`).
The snapshot is taken, the host fields are cleared; if a host was present,
`absolutePath` is forced true and the path/host-ambiguity resolver runs;
on its failure the three saved fields are restored and `URI_ERROR_MALLOC`
is returned; otherwise the stale data is cleaned up. -/
def removeHost (env : Collab) (uri : Uri) : SetHostOutcome :=
  if HasHost uri then
    match env.ensurePath { clearHostFields uri with absolutePath := true } with
    | (true, uri3) =>
        ⟨.success, uri3, cleanupFrees uri, [], false, true⟩
    | (false, uri3) =>
        ⟨.mallocErr,
         { uri3 with hostText := uri.hostText,
                     hostData := uri.hostData,
                     absolutePath := uri.absolutePath },
         [], [], false, true⟩
  else
    ⟨.success, clearHostFields uri, cleanupFrees uri, [], false, false⟩

/-- Lines 151-269 for the assignment path (`first != NULL`), entered after
the ownership step; `uri0` is the state the snapshot is taken of, `moc`
records whether the ownership promoter was invoked earlier in this call.
The new range is materialized into `hostText`; per host kind the binary
record is allocated and filled (IPv4), allocated and parsed (IPv6), made to
alias `hostText` (IPvFuture), or nothing more is done (RegName); every
allocation failure frees the just-materialized text, restores the
snapshot and returns `URI_ERROR_MALLOC`; success clears the stale old
data. -/
def applyNew (env : Collab) (uri0 : Uri) (hostType : UriHostType)
    (src : TextRange) (moc : Bool) : SetHostOutcome :=
  match env.copyRange src with
  | none =>
      ⟨.mallocErr, restoreHost (clearHostFields uri0) uri0, [], [], moc,
       false⟩
  | some newHT =>
    match hostType with
    | .ip4 =>
      match env.mallocIp4 with
      | none =>
          ⟨.mallocErr,
           restoreHost { clearHostFields uri0 with hostText := newHT } uri0,
           [newHT.first], [], moc, false⟩
      | some p =>
          ⟨.success,
           { clearHostFields uri0 with
               hostText := newHT,
               hostData :=
                 ⟨some (p, (ParseIpFourAddress (env.read src)).getD []),
                  none, ⟨none, none⟩⟩,
               absolutePath := false },
           cleanupFrees uri0, [p], moc, false⟩
    | .ip6 =>
      match env.mallocIp6 with
      | none =>
          ⟨.mallocErr,
           restoreHost { clearHostFields uri0 with hostText := newHT } uri0,
           [newHT.first], [], moc, false⟩
      | some p =>
          match env.parseIp6 (env.read src) with
          | none =>
              ⟨.mallocErr,
               restoreHost { clearHostFields uri0 with hostText := newHT }
                 uri0,
               [newHT.first], [p], moc, false⟩
          | some dat =>
              ⟨.success,
               { clearHostFields uri0 with
                   hostText := newHT,
                   hostData := ⟨none, some (p, dat), ⟨none, none⟩⟩,
                   absolutePath := false },
               cleanupFrees uri0, [p], moc, false⟩
    | .ipFuture =>
        ⟨.success,
         { clearHostFields uri0 with
             hostText := newHT,
             hostData := ⟨none, none, newHT⟩,
             absolutePath := false },
         cleanupFrees uri0, [], moc, false⟩
    | .regName =>
        ⟨.success,
         { clearHostFields uri0 with hostText := newHT,
                                     absolutePath := false },
         cleanupFrees uri0, [], moc, false⟩

/-- Lines 107-141: the syntax gate, dispatching on the host kind; `none`
means the new text passed, `some e` is the error to be returned. -/
def validateNew (env : Collab) (hostType : UriHostType)
    (text : List Char) : Option UriError :=
  match hostType with
  | .ip4 => if IsWellFormedHostIp4 text then none else some .syntaxErr
  | .ip6 =>
    match env.wfIp6 text with
    | .ok => none
    | .bad => some .syntaxErr
    | .oom => some .mallocErr
  | .ipFuture =>
    match env.wfIpFuture text with
    | .ok => none
    | .bad => some .syntaxErr
    | .oom => some .mallocErr
  | .regName => if env.wfRegName text then none else some .syntaxErr

/-- `uriInternalSetHostMm` (lines 84-272) for a non-`NULL` `uri`:
the range-mismatch check, the allocator's structural validation
(modelled from the spec as returning the `Null` error), the
grammar gate for removal, the syntax gate for assignment, the ownership
step and the transactional apply. -/
def InternalSetHostMm (env : Collab) (uri : Uri) (hostType : UriHostType)
    (first afterLast : Ptr) : SetHostOutcome :=
  if first.isNone != afterLast.isNone then
    ⟨.errNull, uri, [], [], false, false⟩
  else if env.memValid = false then
    ⟨.errNull, uri, [], [], false, false⟩
  else
    match first with
    | none =>
      if uri.userInfo.first ≠ none then
        ⟨.userInfoSetErr, uri, [], [], false, false⟩
      else if uri.portText.first ≠ none then
        ⟨.portSetErr, uri, [], [], false, false⟩
      else
        removeHost env uri
    | some f =>
      match validateNew env hostType (env.read ⟨some f, afterLast⟩) with
      | some e => ⟨e, uri, [], [], false, false⟩
      | none =>
        if uri.owner = false then
          match env.makeOwner uri with
          | none => ⟨.mallocErr, uri, [], [], true, false⟩
          | some uri1 => applyNew env uri1 hostType ⟨some f, afterLast⟩ true
        else
          applyNew env uri hostType ⟨some f, afterLast⟩ false

/-- The outcome of a call whose `uri` argument may be `NULL`. -/
structure TopOutcome where
  ret : UriError
  uri : Option Uri
  freed : List Ptr
  malloced : List Nat
  makeOwnerCalled : Bool
  ensurePathCalled : Bool
deriving DecidableEq

/-- `uriInternalSetHostMm` including the `uri == NULL` check of line 90. -/
def InternalSetHostMmTop (env : Collab) (uri : Option Uri)
    (hostType : UriHostType) (first afterLast : Ptr) : TopOutcome :=
  match uri with
  | none => ⟨.errNull, none, [], [], false, false⟩
  | some u =>
    let o := InternalSetHostMm env u hostType first afterLast
    ⟨o.ret, some o.uri, o.freed, o.malloced, o.makeOwnerCalled,
     o.ensurePathCalled⟩

/-- The state the transactional snapshot of line 153 is taken of: the
pre-call state, except that a successful ownership promotion has already
been applied when a new host is assigned to a non-owning URI. -/
def snapshotOf (env : Collab) (uri : Uri) (first : Ptr) : Uri :=
  if first ≠ none ∧ uri.owner = false then (env.makeOwner uri).getD uri
  else uri

/-- Modelled from the spec: the path/host-ambiguity resolver mutates the
path representation only — every non-path field of its output URI equals
the input's. -/
def EnsurePathTouchesOnlyPath (env : Collab) : Prop :=
  ∀ u : Uri,
    ((env.ensurePath u).2).scheme = u.scheme ∧
    ((env.ensurePath u).2).userInfo = u.userInfo ∧
    ((env.ensurePath u).2).hostText = u.hostText ∧
    ((env.ensurePath u).2).hostData = u.hostData ∧
    ((env.ensurePath u).2).portText = u.portText ∧
    ((env.ensurePath u).2).absolutePath = u.absolutePath ∧
    ((env.ensurePath u).2).owner = u.owner

/-- Modelled from the spec: the range materializer yields a range holding
the same characters as its source. -/
def CopyPreservesContent (env : Collab) : Prop :=
  ∀ sr r : TextRange, env.copyRange sr = some r → env.read r = env.read sr

/-- A URI with nothing set: all ranges absent, not an owner. -/
def emptyUri : Uri :=
  { scheme := ⟨none, none⟩, userInfo := ⟨none, none⟩,
    hostText := ⟨none, none⟩,
    hostData := ⟨none, none, ⟨none, none⟩⟩,
    portText := ⟨none, none⟩, pathHead := none, pathTail := none,
    absolutePath := true, owner := false }

/-- A benign concrete environment for test calls: the allocator validates,
memory holds `192.0.2.1` at range `[0, 9)`, all validators accept, the
promoter sets the owner flag (there are no ranges to re-back on the URIs
it is applied to), the materializer aliases its source, both direct
allocations succeed, and the path resolver succeeds without touching the
URI. -/
def envOk : Collab :=
  { memValid := true,
    read := fun r =>
      if r.first = some 0 ∧ r.afterLast = some 9 then
        ['1', '9', '2', '.', '0', '.', '2', '.', '1']
      else [],
    wfIp6 := fun _ => .ok,
    wfIpFuture := fun _ => .ok,
    wfRegName := fun _ => true,
    makeOwner := fun u => some { u with owner := true },
    copyRange := fun sr => some sr,
    mallocIp4 := some 40,
    mallocIp6 := some 50,
    parseIp6 := fun _ => some [0, 0, 0, 1],
    ensurePath := fun u => (true, u) }

/-- `envOk` with a range materializer whose allocation fails. -/
def envCopyFail : Collab :=
  { envOk with copyRange := fun _ => none }

/-- A URI that owns a registered-name host at `[20, 24)` and still holds a
stale IPv4 binary record at address `30`. -/
def uriHost : Uri :=
  { emptyUri with
    owner := true,
    hostText := ⟨some 20, some 24⟩,
    hostData := ⟨some (30, [1, 2, 3, 4]), none, ⟨none, none⟩⟩,
    absolutePath := false }

/-- A URI that owns an IPvFuture host at `[60, 64)` (the aliasing
invariant holds: `hostData.ipFuture` and `hostText` are the same range). -/
def uriIpf : Uri :=
  { emptyUri with
    owner := true,
    hostText := ⟨some 60, some 64⟩,
    hostData := ⟨none, none, ⟨some 60, some 64⟩⟩,
    absolutePath := false }

/-- A URI with a port `[28, 30)` but no host and no user info. -/
def uriPortOnly : Uri :=
  { emptyUri with portText := ⟨some 28, some 30⟩ }

/-- A URI with user info `[10, 14)` but no host. -/
def uriUserInfoOnly : Uri :=
  { emptyUri with userInfo := ⟨some 10, some 14⟩ }

/-! ## General lemmas about the engine -/

theorem applyNew_makeOwnerCalled (env : Collab) (u0 : Uri)
    (t : UriHostType) (src : TextRange) (moc : Bool) :
    (applyNew env u0 t src moc).makeOwnerCalled = moc := by
  unfold applyNew
  repeat' split
  all_goals rfl

theorem applyNew_owner (env : Collab) (u0 : Uri)
    (t : UriHostType) (src : TextRange) (moc : Bool) :
    (applyNew env u0 t src moc).uri.owner = u0.owner := by
  unfold applyNew
  repeat' split
  all_goals simp [restoreHost, clearHostFields]

theorem applyNew_ensurePathCalled (env : Collab) (u0 : Uri)
    (t : UriHostType) (src : TextRange) (moc : Bool) :
    (applyNew env u0 t src moc).ensurePathCalled = false := by
  unfold applyNew
  repeat' split
  all_goals rfl

theorem removeHost_makeOwnerCalled (env : Collab) (uri : Uri) :
    (removeHost env uri).makeOwnerCalled = false := by
  unfold removeHost
  repeat' split
  all_goals rfl

theorem ensurePath_owner (env : Collab)
    (hpath : EnsurePathTouchesOnlyPath env) (u u3 : Uri) (b : Bool)
    (h : env.ensurePath u = (b, u3)) : u3.owner = u.owner := by
  have h7 := (hpath u).2.2.2.2.2.2
  rw [h] at h7
  exact h7

theorem removeHost_owner (env : Collab) (uri : Uri)
    (hpath : EnsurePathTouchesOnlyPath env) :
    (removeHost env uri).uri.owner = uri.owner := by
  unfold removeHost
  repeat' split
  · rename_i uri3 h
    have := ensurePath_owner env hpath _ _ _ h
    simpa [clearHostFields] using this
  · rename_i uri3 h
    have := ensurePath_owner env hpath _ _ _ h
    simpa [clearHostFields] using this
  · simp [clearHostFields]

theorem validateNew_isSome_cases (env : Collab) (t : UriHostType)
    (text : List Char) (e : UriError)
    (h : validateNew env t text = some e) :
    e = .syntaxErr ∨ e = .mallocErr := by
  unfold validateNew at h
  repeat' split at h
  all_goals simp_all

/-! ### Step lemmas: one engine gate at a time -/

theorem setHost_step_mismatch (env : Collab) (uri : Uri) (t : UriHostType)
    (first afterLast : Ptr)
    (h : (first.isNone != afterLast.isNone) = true) :
    InternalSetHostMm env uri t first afterLast =
      ⟨.errNull, uri, [], [], false, false⟩ := by
  unfold InternalSetHostMm
  simp [h]

theorem setHost_step_memFail (env : Collab) (uri : Uri) (t : UriHostType)
    (first afterLast : Ptr) (h : env.memValid = false) :
    InternalSetHostMm env uri t first afterLast =
      ⟨.errNull, uri, [], [], false, false⟩ := by
  unfold InternalSetHostMm
  simp [h, ite_self]

theorem setHost_step_userInfoSet (env : Collab) (uri : Uri)
    (t : UriHostType) (hmem : env.memValid = true)
    (h : uri.userInfo.first ≠ none) :
    InternalSetHostMm env uri t none none =
      ⟨.userInfoSetErr, uri, [], [], false, false⟩ := by
  unfold InternalSetHostMm
  simp [hmem, h]

theorem setHost_step_portSet (env : Collab) (uri : Uri)
    (t : UriHostType) (hmem : env.memValid = true)
    (h1 : uri.userInfo.first = none) (h2 : uri.portText.first ≠ none) :
    InternalSetHostMm env uri t none none =
      ⟨.portSetErr, uri, [], [], false, false⟩ := by
  unfold InternalSetHostMm
  simp [hmem, h1, h2]

theorem setHost_step_remove (env : Collab) (uri : Uri)
    (t : UriHostType) (hmem : env.memValid = true)
    (h1 : uri.userInfo.first = none) (h2 : uri.portText.first = none) :
    InternalSetHostMm env uri t none none = removeHost env uri := by
  unfold InternalSetHostMm
  simp [hmem, h1, h2]

theorem setHost_step_validatorFail (env : Collab) (uri : Uri)
    (t : UriHostType) (f g : Nat) (e : UriError)
    (hmem : env.memValid = true)
    (hv : validateNew env t (env.read ⟨some f, some g⟩) = some e) :
    InternalSetHostMm env uri t (some f) (some g) =
      ⟨e, uri, [], [], false, false⟩ := by
  unfold InternalSetHostMm
  simp [hmem, hv]

theorem setHost_step_promoteFail (env : Collab) (uri : Uri)
    (t : UriHostType) (f g : Nat)
    (hmem : env.memValid = true)
    (hv : validateNew env t (env.read ⟨some f, some g⟩) = none)
    (how : uri.owner = false) (hmo : env.makeOwner uri = none) :
    InternalSetHostMm env uri t (some f) (some g) =
      ⟨.mallocErr, uri, [], [], true, false⟩ := by
  unfold InternalSetHostMm
  simp [hmem, hv, how, hmo]

theorem setHost_step_promoteApply (env : Collab) (uri uri1 : Uri)
    (t : UriHostType) (f g : Nat)
    (hmem : env.memValid = true)
    (hv : validateNew env t (env.read ⟨some f, some g⟩) = none)
    (how : uri.owner = false) (hmo : env.makeOwner uri = some uri1) :
    InternalSetHostMm env uri t (some f) (some g) =
      applyNew env uri1 t ⟨some f, some g⟩ true := by
  unfold InternalSetHostMm
  simp [hmem, hv, how, hmo]

theorem setHost_step_ownedApply (env : Collab) (uri : Uri)
    (t : UriHostType) (f g : Nat)
    (hmem : env.memValid = true)
    (hv : validateNew env t (env.read ⟨some f, some g⟩) = none)
    (how : uri.owner = true) :
    InternalSetHostMm env uri t (some f) (some g) =
      applyNew env uri t ⟨some f, some g⟩ false := by
  unfold InternalSetHostMm
  simp [hmem, hv, how]

/-! ## The claims -/

/-- C2 (confirmed): with the new range absent, a URI whose `userInfo` is
set is rejected with `URI_ERROR_SETHOST_USERINFO_SET`, and one whose
`userInfo` is unset but whose `portText` is set is rejected with
`URI_ERROR_SETHOST_PORT_SET`; both checks precede any mutation, so the
URI is returned unchanged, nothing is freed or allocated, and neither the
promoter nor the path resolver is invoked. -/
theorem setHost_remove_grammar_gate (env : Collab) (uri : Uri)
    (t : UriHostType) (hmem : env.memValid = true) :
    (uri.userInfo.first ≠ none →
      InternalSetHostMm env uri t none none =
        ⟨.userInfoSetErr, uri, [], [], false, false⟩) ∧
    (uri.userInfo.first = none → uri.portText.first ≠ none →
      InternalSetHostMm env uri t none none =
        ⟨.portSetErr, uri, [], [], false, false⟩) := by
  constructor
  · intro h
    simp [InternalSetHostMm, hmem, h]
  · intro h1 h2
    simp [InternalSetHostMm, hmem, h1, h2]

/-- C2 witness: removing the host of a URI whose `portText` is `[28, 30)`
(and whose `userInfo` is absent) fails with the port-present error and
changes nothing. -/
theorem setHost_remove_grammar_gate_witness :
    envOk.memValid = true ∧
    uriPortOnly.portText.first ≠ none ∧
    InternalSetHostMm envOk uriPortOnly .regName none none =
      ⟨.portSetErr, uriPortOnly, [], [], false, false⟩ :=
  ⟨rfl, by decide,
   (setHost_remove_grammar_gate envOk uriPortOnly .regName rfl).2
     (by decide) (by decide)⟩

/-- C7 (confirmed): a `NULL` uri, a half-set range (exactly one of the
two bounds present), or an allocator failing structural validation is
rejected with the `Null` error before any state is touched: the URI is
unchanged and no free, allocation, or collaborator call happens.  (The
allocator's structural validation is modelled from the spec.) -/
theorem setHost_null_gate (env : Collab) (uri : Option Uri)
    (t : UriHostType) (first afterLast : Ptr)
    (h : uri = none ∨ (first.isNone != afterLast.isNone) = true ∨
         env.memValid = false) :
    InternalSetHostMmTop env uri t first afterLast =
      ⟨.errNull, uri, [], [], false, false⟩ := by
  rcases h with h | h | h
  · subst h; rfl
  · rcases uri with _ | u
    · rfl
    · simp [InternalSetHostMmTop, InternalSetHostMm, h]
  · rcases uri with _ | u
    · rfl
    · simp [InternalSetHostMmTop, InternalSetHostMm, h, ite_self]

/-- C7 witness: a call whose range has only `afterLast` set is rejected
with the `Null` error and the URI is untouched. -/
theorem setHost_null_gate_witness :
    ((none : Ptr).isNone != (some 5 : Ptr).isNone) = true ∧
    InternalSetHostMmTop envOk (some emptyUri) .regName none (some 5) =
      ⟨.errNull, some emptyUri, [], [], false, false⟩ :=
  ⟨by decide,
   setHost_null_gate envOk (some emptyUri) .regName none (some 5)
     (Or.inr (Or.inl (by decide)))⟩

/-- C10 (confirmed): a removal call (range absent) never invokes the
ownership promoter and leaves the owner flag unchanged whatever the
outcome (given the resolver's spec contract of mutating only the path);
conversely the promoter runs only when a new host is being assigned to a
URI whose owner flag is false. -/
theorem setHost_promoter_frame (env : Collab) (uri : Uri)
    (t : UriHostType) (first afterLast : Ptr)
    (hpath : EnsurePathTouchesOnlyPath env) :
    (first = none →
      (InternalSetHostMm env uri t first afterLast).makeOwnerCalled
        = false ∧
      (InternalSetHostMm env uri t first afterLast).uri.owner
        = uri.owner) ∧
    ((InternalSetHostMm env uri t first afterLast).makeOwnerCalled
        = true →
      first ≠ none ∧ uri.owner = false) := by
  constructor
  · rintro rfl
    rcases afterLast with _ | g
    · cases hm : env.memValid
      · rw [setHost_step_memFail env uri t none none hm]
        exact ⟨rfl, rfl⟩
      · cases hui : uri.userInfo.first
        · cases hpt : uri.portText.first
          · rw [setHost_step_remove env uri t hm hui hpt]
            exact ⟨removeHost_makeOwnerCalled env uri,
                   removeHost_owner env uri hpath⟩
          · rw [setHost_step_portSet env uri t hm hui (by simp [hpt])]
            exact ⟨rfl, rfl⟩
        · rw [setHost_step_userInfoSet env uri t hm (by simp [hui])]
          exact ⟨rfl, rfl⟩
    · rw [setHost_step_mismatch env uri t none (some g) rfl]
      exact ⟨rfl, rfl⟩
  · intro hcall
    unfold InternalSetHostMm at hcall
    repeat' split at hcall
    any_goals simp_all [removeHost_makeOwnerCalled, applyNew_makeOwnerCalled]

/-- C10 witness: assigning a registered name to a non-owning URI invokes
the promoter, and the removal call on an owned URI does not and keeps the
owner flag. -/
theorem setHost_promoter_frame_witness :
    (InternalSetHostMm envOk uriHost .regName none none).makeOwnerCalled
      = false ∧
    (InternalSetHostMm envOk uriHost .regName none none).uri.owner
      = uriHost.owner :=
  (setHost_promoter_frame envOk uriHost .regName none none
    (fun _ => ⟨rfl, rfl, rfl, rfl, rfl, rfl, rfl⟩)).1 rfl

theorem applyNew_ipFuture_success (env : Collab) (u0 : Uri)
    (src : TextRange) (moc : Bool)
    (hs : (applyNew env u0 .ipFuture src moc).ret = .success) :
    (applyNew env u0 .ipFuture src moc).uri.hostData.ipFuture
      = (applyNew env u0 .ipFuture src moc).uri.hostText ∧
    (applyNew env u0 .ipFuture src moc).malloced = [] ∧
    (applyNew env u0 .ipFuture src moc).uri.hostData.ip4 = none ∧
    (applyNew env u0 .ipFuture src moc).uri.hostData.ip6 = none := by
  revert hs
  unfold applyNew
  cases h : env.copyRange src
  · intro hs
    exact absurd hs (by simp)
  · intro hs
    exact ⟨rfl, rfl, rfl, rfl⟩

/-- C4 (confirmed): after every successful assignment of an IPvFuture
host, `hostData.ipFuture` and `hostText` are the identical range (same
`first`, same `afterLast`), the engine performed no allocation of its own
beyond the materialized `hostText`, and no binary record is attached. -/
theorem setHost_ipFuture_alias (env : Collab) (uri : Uri)
    (first afterLast : Ptr)
    (hf : first ≠ none)
    (hs : (InternalSetHostMm env uri .ipFuture first afterLast).ret
      = .success) :
    (InternalSetHostMm env uri .ipFuture first afterLast).uri.hostData.ipFuture
      = (InternalSetHostMm env uri .ipFuture first afterLast).uri.hostText ∧
    (InternalSetHostMm env uri .ipFuture first afterLast).malloced = [] ∧
    (InternalSetHostMm env uri .ipFuture first afterLast).uri.hostData.ip4
      = none ∧
    (InternalSetHostMm env uri .ipFuture first afterLast).uri.hostData.ip6
      = none := by
  rcases first with _ | f
  · exact absurd rfl hf
  rcases afterLast with _ | g
  · rw [setHost_step_mismatch env uri .ipFuture (some f) none rfl] at hs
    exact absurd hs (by simp)
  cases hm : env.memValid
  · rw [setHost_step_memFail env uri .ipFuture (some f) (some g) hm] at hs
    exact absurd hs (by simp)
  cases hv : validateNew env .ipFuture (env.read ⟨some f, some g⟩)
  · cases how : uri.owner
    · cases hmo : env.makeOwner uri
      · rw [setHost_step_promoteFail env uri .ipFuture f g hm hv how hmo]
          at hs
        exact absurd hs (by simp)
      · rw [setHost_step_promoteApply env uri _ .ipFuture f g hm hv how hmo]
          at hs ⊢
        exact applyNew_ipFuture_success env _ ⟨some f, some g⟩ true hs
    · rw [setHost_step_ownedApply env uri .ipFuture f g hm hv how] at hs ⊢
      exact applyNew_ipFuture_success env uri ⟨some f, some g⟩ false hs
  · rename_i e
    rw [setHost_step_validatorFail env uri .ipFuture f g e hm hv] at hs
    rcases validateNew_isSome_cases env .ipFuture _ e hv with rfl | rfl <;>
      exact absurd hs (by simp)

/-- C4 witness: assigning the IPvFuture literal at `[0, 9)` to a fresh
URI succeeds with the aliasing invariant established. -/
theorem setHost_ipFuture_alias_witness :
    (InternalSetHostMm envOk emptyUri .ipFuture (some 0) (some 9)).ret
      = .success ∧
    (InternalSetHostMm envOk emptyUri .ipFuture (some 0)
      (some 9)).uri.hostData.ipFuture
      = (InternalSetHostMm envOk emptyUri .ipFuture (some 0)
          (some 9)).uri.hostText ∧
    (InternalSetHostMm envOk emptyUri .ipFuture (some 0) (some 9)).malloced
      = [] :=
  ⟨by decide,
   (setHost_ipFuture_alias envOk emptyUri (some 0) (some 9) (by decide)
     (by decide)).1,
   (setHost_ipFuture_alias envOk emptyUri (some 0) (some 9) (by decide)
     (by decide)).2.1⟩

theorem setHost_assign_success_cases (env : Collab) (uri : Uri)
    (t : UriHostType) (f : Nat) (afterLast : Ptr)
    (hs : (InternalSetHostMm env uri t (some f) afterLast).ret
      = .success) :
    ∃ g u1 moc,
      afterLast = some g ∧
      validateNew env t (env.read ⟨some f, some g⟩) = none ∧
      InternalSetHostMm env uri t (some f) afterLast
        = applyNew env u1 t ⟨some f, some g⟩ moc ∧
      ((u1 = uri ∧ uri.owner = true ∧ moc = false) ∨
        (uri.owner = false ∧ env.makeOwner uri = some u1 ∧ moc = true)) := by
  rcases afterLast with _ | g
  · rw [setHost_step_mismatch env uri t (some f) none rfl] at hs
    exact absurd hs (by simp)
  cases hm : env.memValid
  · rw [setHost_step_memFail env uri t (some f) (some g) hm] at hs
    exact absurd hs (by simp)
  cases hv : validateNew env t (env.read ⟨some f, some g⟩)
  · cases how : uri.owner
    · cases hmo : env.makeOwner uri
      · rw [setHost_step_promoteFail env uri t f g hm hv how hmo] at hs
        exact absurd hs (by simp)
      · rename_i u1
        exact ⟨g, u1, true, rfl, hv,
               setHost_step_promoteApply env uri u1 t f g hm hv how hmo,
               Or.inr ⟨rfl, rfl, rfl⟩⟩
    · exact ⟨g, uri, false, rfl, hv,
             setHost_step_ownedApply env uri t f g hm hv how,
             Or.inl ⟨rfl, rfl, rfl⟩⟩
  · rename_i e
    rw [setHost_step_validatorFail env uri t f g e hm hv] at hs
    rcases validateNew_isSome_cases env t _ e hv with rfl | rfl <;>
      exact absurd hs (by simp)

theorem setHost_remove_success_cases (env : Collab) (uri : Uri)
    (t : UriHostType) (afterLast : Ptr)
    (hs : (InternalSetHostMm env uri t none afterLast).ret = .success) :
    afterLast = none ∧ env.memValid = true ∧ uri.userInfo.first = none ∧
    uri.portText.first = none ∧
    InternalSetHostMm env uri t none afterLast = removeHost env uri := by
  rcases afterLast with _ | g
  · cases hm : env.memValid
    · rw [setHost_step_memFail env uri t none none hm] at hs
      exact absurd hs (by simp)
    · cases hui : uri.userInfo.first
      · cases hpt : uri.portText.first
        · exact ⟨rfl, rfl, rfl, rfl, setHost_step_remove env uri t hm hui hpt⟩
        · rw [setHost_step_portSet env uri t hm hui (by simp [hpt])] at hs
          exact absurd hs (by simp)
      · rw [setHost_step_userInfoSet env uri t hm (by simp [hui])] at hs
        exact absurd hs (by simp)
  · rw [setHost_step_mismatch env uri t none (some g) rfl] at hs
    exact absurd hs (by simp)

theorem applyNew_success_absolutePath (env : Collab) (u0 : Uri)
    (t : UriHostType) (src : TextRange) (moc : Bool)
    (hs : (applyNew env u0 t src moc).ret = .success) :
    (applyNew env u0 t src moc).uri.absolutePath = false := by
  revert hs
  unfold applyNew
  cases h : env.copyRange src
  · intro hs; exact absurd hs (by simp)
  · cases t
    · cases h4 : env.mallocIp4
      · intro hs; exact absurd hs (by simp)
      · intro _; rfl
    · cases h6 : env.mallocIp6
      · intro hs; exact absurd hs (by simp)
      · cases hp : env.parseIp6 (env.read src)
        · intro hs; exact absurd hs (by simp)
        · intro _; rfl
    · intro _; rfl
    · intro _; rfl

theorem ensurePath_absolutePath (env : Collab)
    (hpath : EnsurePathTouchesOnlyPath env) (u u3 : Uri) (b : Bool)
    (h : env.ensurePath u = (b, u3)) :
    u3.absolutePath = u.absolutePath := by
  have h6 := (hpath u).2.2.2.2.2.1
  rw [h] at h6
  exact h6

theorem removeHost_success_absolutePath (env : Collab) (uri : Uri)
    (hpath : EnsurePathTouchesOnlyPath env) (hh : HasHost uri = true)
    (hs : (removeHost env uri).ret = .success) :
    (removeHost env uri).uri.absolutePath = true := by
  revert hs
  unfold removeHost
  split
  · split
    · rename_i uri3 hp
      intro _
      have := ensurePath_absolutePath env hpath _ _ _ hp
      simpa using this
    · intro hs
      exact absurd hs (by simp)
  · rename_i hns
    exact absurd hh hns

/-- C3 (confirmed): after every successful assignment of a present host
(of any kind) `absolutePath` is false; after every successful removal of
a previously present host `absolutePath` is true (given the resolver's
spec contract of mutating only the path).  Host presence is modelled from
the spec as `hostText.first` being set. -/
theorem setHost_absolutePath_toggle (env : Collab) (uri : Uri)
    (t : UriHostType) (first afterLast : Ptr)
    (hpath : EnsurePathTouchesOnlyPath env)
    (hs : (InternalSetHostMm env uri t first afterLast).ret = .success) :
    (first ≠ none →
      (InternalSetHostMm env uri t first afterLast).uri.absolutePath
        = false) ∧
    (first = none → HasHost uri = true →
      (InternalSetHostMm env uri t first afterLast).uri.absolutePath
        = true) := by
  rcases first with _ | f
  · refine ⟨fun h => absurd rfl h, fun _ hh => ?_⟩
    obtain ⟨-, -, -, -, heq⟩ :=
      setHost_remove_success_cases env uri t afterLast hs
    rw [heq] at hs ⊢
    exact removeHost_success_absolutePath env uri hpath hh hs
  · refine ⟨fun _ => ?_, fun h => by simp at h⟩
    obtain ⟨g, u1, moc, rfl, -, heq, -⟩ :=
      setHost_assign_success_cases env uri t f afterLast hs
    rw [heq] at hs ⊢
    exact applyNew_success_absolutePath env u1 t _ moc hs

/-- C3 witness: removing the owned registered-name host of `uriHost`
(which has `absolutePath = false`) succeeds and sets `absolutePath` to
true. -/
theorem setHost_absolutePath_toggle_witness :
    (InternalSetHostMm envOk uriHost .regName none none).ret
      = .success ∧
    HasHost uriHost = true ∧
    (InternalSetHostMm envOk uriHost .regName none none).uri.absolutePath
      = true :=
  ⟨by decide, by decide,
   (setHost_absolutePath_toggle envOk uriHost .regName none none
     (fun _ => ⟨rfl, rfl, rfl, rfl, rfl, rfl, rfl⟩) (by decide)).2 rfl
     (by decide)⟩

/-- C6 (confirmed): with the new range present the engine dispatches on
the host kind to the matching syntax validator before any mutation: a
rejection yields the `Syntax` error and an allocation failure inside the
IPv6 / IPvFuture validator is propagated as the out-of-memory error; in
every case the URI is returned unchanged, nothing is freed or allocated
and no other collaborator runs.  (The IPv4 validator is modelled from
the spec; the IPv6/IPvFuture/RegName validators are oracle
capabilities.) -/
theorem setHost_validator_gate (env : Collab) (uri : Uri) (f g : Nat)
    (hmem : env.memValid = true) :
    (IsWellFormedHostIp4 (env.read ⟨some f, some g⟩) = false →
      InternalSetHostMm env uri .ip4 (some f) (some g)
        = ⟨.syntaxErr, uri, [], [], false, false⟩) ∧
    (env.wfIp6 (env.read ⟨some f, some g⟩) = .bad →
      InternalSetHostMm env uri .ip6 (some f) (some g)
        = ⟨.syntaxErr, uri, [], [], false, false⟩) ∧
    (env.wfIp6 (env.read ⟨some f, some g⟩) = .oom →
      InternalSetHostMm env uri .ip6 (some f) (some g)
        = ⟨.mallocErr, uri, [], [], false, false⟩) ∧
    (env.wfIpFuture (env.read ⟨some f, some g⟩) = .bad →
      InternalSetHostMm env uri .ipFuture (some f) (some g)
        = ⟨.syntaxErr, uri, [], [], false, false⟩) ∧
    (env.wfIpFuture (env.read ⟨some f, some g⟩) = .oom →
      InternalSetHostMm env uri .ipFuture (some f) (some g)
        = ⟨.mallocErr, uri, [], [], false, false⟩) ∧
    (env.wfRegName (env.read ⟨some f, some g⟩) = false →
      InternalSetHostMm env uri .regName (some f) (some g)
        = ⟨.syntaxErr, uri, [], [], false, false⟩) := by
  refine ⟨fun h => ?_, fun h => ?_, fun h => ?_, fun h => ?_,
          fun h => ?_, fun h => ?_⟩
  all_goals
    exact setHost_step_validatorFail env uri _ f g _ hmem
      (by simp [validateNew, h])

/-- C6 witness: a registered-name assignment rejected by the RegName
validator fails with the `Syntax` error and the URI is untouched. -/
theorem setHost_validator_gate_witness :
    ({ envOk with wfRegName := fun _ => false } : Collab).wfRegName
        (({ envOk with wfRegName := fun _ => false } : Collab).read
          ⟨some 0, some 9⟩) = false ∧
    InternalSetHostMm { envOk with wfRegName := fun _ => false } emptyUri
        .regName (some 0) (some 9)
      = ⟨.syntaxErr, emptyUri, [], [], false, false⟩ :=
  ⟨rfl,
   (setHost_validator_gate { envOk with wfRegName := fun _ => false }
     emptyUri 0 9 rfl).2.2.2.2.2 rfl⟩

/-- C9 (confirmed): removing the host of a URI that has no host (all host
fields absent, consistently with invariant I1), no user info and no port
succeeds, returns the URI completely unchanged (in particular
`absolutePath` is not forced to true), never invokes the path/host
ambiguity resolver, and frees nothing: the only two `free` calls receive
the `NULL` pointers of the absent IPv4/IPv6 records, a no-op under the
allocator contract. -/
theorem setHost_remove_absent_noop (env : Collab) (uri : Uri)
    (t : UriHostType) (hmem : env.memValid = true)
    (hht : uri.hostText = ⟨none, none⟩)
    (hipf : uri.hostData.ipFuture = ⟨none, none⟩)
    (hip4 : uri.hostData.ip4 = none) (hip6 : uri.hostData.ip6 = none)
    (hui : uri.userInfo.first = none) (hpt : uri.portText.first = none) :
    InternalSetHostMm env uri t none none =
      ⟨.success, uri, [none, none], [], false, false⟩ := by
  rw [setHost_step_remove env uri t hmem hui hpt]
  have h1 : clearHostFields uri = uri := by
    cases uri with
    | mk s ui ht hd pt ph ptl ap ow =>
      cases hd
      simp_all [clearHostFields]
  have h2 : cleanupFrees uri = [none, none] := by
    simp [cleanupFrees, hipf, hht, ip4Ptr, ip6Ptr, hip4, hip6]
  simp [removeHost, HasHost, hht, h1, h2]

/-- C9 witness: the no-host removal call on the fresh URI succeeds and
changes nothing. -/
theorem setHost_remove_absent_noop_witness :
    envOk.memValid = true ∧
    InternalSetHostMm envOk emptyUri .regName none none =
      ⟨.success, emptyUri, [none, none], [], false, false⟩ :=
  ⟨rfl,
   setHost_remove_absent_noop envOk emptyUri .regName rfl rfl rfl rfl rfl
     rfl rfl⟩

theorem applyNew_success_freed (env : Collab) (u0 : Uri)
    (t : UriHostType) (src : TextRange) (moc : Bool)
    (hs : (applyNew env u0 t src moc).ret = .success) :
    (applyNew env u0 t src moc).freed = cleanupFrees u0 := by
  revert hs
  unfold applyNew
  cases h : env.copyRange src
  · intro hs; exact absurd hs (by simp)
  · cases t
    · cases h4 : env.mallocIp4
      · intro hs; exact absurd hs (by simp)
      · intro _; rfl
    · cases h6 : env.mallocIp6
      · intro hs; exact absurd hs (by simp)
      · cases hp : env.parseIp6 (env.read src)
        · intro hs; exact absurd hs (by simp)
        · intro _; rfl
    · intro _; rfl
    · intro _; rfl

theorem removeHost_success_freed (env : Collab) (uri : Uri)
    (hs : (removeHost env uri).ret = .success) :
    (removeHost env uri).freed = cleanupFrees uri := by
  revert hs
  unfold removeHost
  split
  · split
    · intro _; rfl
    · intro hs; exact absurd hs (by simp)
  · intro _; rfl

/-- C5 (confirmed): on every successful commit, the complete list of
arguments handed to `memory->free` is: the old IPvFuture aliasing range
exactly once — only if the snapshot's owner flag was true and the range
non-empty — with the generic `hostText` free skipped (no double free);
otherwise the old `hostText` at most once under the same owner/non-empty
condition; followed by the unconditional release of the old IPv4 and the
old IPv6 binary record (a `NULL` argument when the record is absent).
The snapshot is the pre-call URI, after ownership promotion when the
promoter ran. -/
theorem setHost_cleanup_frees (env : Collab) (uri : Uri)
    (t : UriHostType) (first afterLast : Ptr)
    (hs : (InternalSetHostMm env uri t first afterLast).ret = .success) :
    (InternalSetHostMm env uri t first afterLast).freed =
      (if (snapshotOf env uri first).hostData.ipFuture.first ≠ none then
        (if (snapshotOf env uri first).owner = true ∧
            (snapshotOf env uri first).hostData.ipFuture.first
              ≠ (snapshotOf env uri first).hostData.ipFuture.afterLast then
          [(snapshotOf env uri first).hostData.ipFuture.first]
        else [])
      else if (snapshotOf env uri first).hostText.first ≠ none then
        (if (snapshotOf env uri first).owner = true ∧
            (snapshotOf env uri first).hostText.first
              ≠ (snapshotOf env uri first).hostText.afterLast then
          [(snapshotOf env uri first).hostText.first]
        else [])
      else [])
      ++ [ip4Ptr (snapshotOf env uri first).hostData,
          ip6Ptr (snapshotOf env uri first).hostData] := by
  have key : (InternalSetHostMm env uri t first afterLast).freed
      = cleanupFrees (snapshotOf env uri first) := by
    rcases first with _ | f
    · obtain ⟨rfl, -, -, -, heq⟩ :=
        setHost_remove_success_cases env uri t afterLast hs
      rw [heq] at hs ⊢
      have hsnap : snapshotOf env uri none = uri := by simp [snapshotOf]
      rw [hsnap]
      exact removeHost_success_freed env uri hs
    · obtain ⟨g, u1, moc, rfl, -, heq, hcase⟩ :=
        setHost_assign_success_cases env uri t f afterLast hs
      rw [heq] at hs ⊢
      rcases hcase with ⟨rfl, how, rfl⟩ | ⟨how, hmo, rfl⟩
      · have hsnap : snapshotOf env u1 (some f) = u1 := by
          simp [snapshotOf, how]
        rw [hsnap]
        exact applyNew_success_freed env u1 t _ false hs
      · have hsnap : snapshotOf env uri (some f) = u1 := by
          simp [snapshotOf, how, hmo]
        rw [hsnap]
        exact applyNew_success_freed env u1 t _ true hs
  rw [key]
  rfl

/-- C5 witness: replacing the owned registered-name host of `uriHost`
frees the old `hostText` at 20 exactly once, then the stale IPv4 record
at 30, then the absent IPv6 record (`NULL`). -/
theorem setHost_cleanup_frees_witness :
    (InternalSetHostMm envOk uriHost .regName (some 0) (some 9)).ret
      = .success ∧
    (InternalSetHostMm envOk uriHost .regName (some 0) (some 9)).freed
      = [some 20, some 30, none] := by
  refine ⟨by decide, ?_⟩
  rw [setHost_cleanup_frees envOk uriHost .regName (some 0) (some 9)
    (by decide)]
  decide

theorem applyNew_ip4_success (env : Collab) (u0 : Uri) (src : TextRange)
    (moc : Bool)
    (hs : (applyNew env u0 .ip4 src moc).ret = .success) :
    ∃ r p, env.copyRange src = some r ∧
      (applyNew env u0 .ip4 src moc).uri.hostText = r ∧
      (applyNew env u0 .ip4 src moc).uri.hostData.ip4
        = some (p, (ParseIpFourAddress (env.read src)).getD []) := by
  revert hs
  unfold applyNew
  cases h : env.copyRange src
  · intro hs; exact absurd hs (by simp)
  · rename_i r
    cases h4 : env.mallocIp4
    · intro hs; exact absurd hs (by simp)
    · rename_i p
      intro _
      exact ⟨r, p, rfl, rfl, rfl⟩

/-- C8 (confirmed): a successful IPv4 assignment stores a `hostText`
holding exactly the original characters, and the attached binary record
holds the four octets denoted by that text (per the spec-modelled
dotted-quad parser), under the materializer contract that copies
preserve content. -/
theorem setHost_ip4_roundtrip (env : Collab) (uri : Uri) (f : Nat)
    (afterLast : Ptr) (hcopy : CopyPreservesContent env)
    (hs : (InternalSetHostMm env uri .ip4 (some f) afterLast).ret
      = .success) :
    env.read (InternalSetHostMm env uri .ip4 (some f)
        afterLast).uri.hostText
      = env.read ⟨some f, afterLast⟩ ∧
    ∃ p octets,
      ParseIpFourAddress (env.read ⟨some f, afterLast⟩) = some octets ∧
      (InternalSetHostMm env uri .ip4 (some f) afterLast).uri.hostData.ip4
        = some (p, octets) := by
  obtain ⟨g, u1, moc, rfl, hval, heq, -⟩ :=
    setHost_assign_success_cases env uri .ip4 f afterLast hs
  rw [heq] at hs ⊢
  obtain ⟨r, p, hcr, hht, hip4⟩ := applyNew_ip4_success env u1 _ moc hs
  have hwf : IsWellFormedHostIp4 (env.read ⟨some f, some g⟩) = true := by
    cases hb : IsWellFormedHostIp4 (env.read ⟨some f, some g⟩)
    · simp [validateNew, hb] at hval
    · rfl
  obtain ⟨octets, hoct⟩ :
      ∃ o, ParseIpFourAddress (env.read ⟨some f, some g⟩) = some o := by
    unfold IsWellFormedHostIp4 at hwf
    exact Option.isSome_iff_exists.mp hwf
  refine ⟨?_, p, octets, hoct, ?_⟩
  · rw [hht]
    exact hcopy _ _ hcr
  · rw [hip4, hoct]
    rfl

/-- C8 witness: assigning `192.0.2.1` (stored at `[0, 9)`) to a fresh
URI succeeds; `hostText` reads back as the same nine characters and the
binary record holds the octets 192, 0, 2, 1. -/
theorem setHost_ip4_roundtrip_witness :
    (InternalSetHostMm envOk emptyUri .ip4 (some 0) (some 9)).ret
      = .success ∧
    envOk.read (InternalSetHostMm envOk emptyUri .ip4 (some 0)
        (some 9)).uri.hostText
      = ['1', '9', '2', '.', '0', '.', '2', '.', '1'] ∧
    (InternalSetHostMm envOk emptyUri .ip4 (some 0)
        (some 9)).uri.hostData.ip4
      = some (40, [192, 0, 2, 1]) := by
  have h := setHost_ip4_roundtrip envOk emptyUri 0 (some 9)
    (fun sr r hh => by injection hh with hh; rw [hh]) (by decide)
  refine ⟨by decide, ?_, by decide⟩
  rw [h.1]
  decide

theorem applyNew_mallocErr_fields (env : Collab) (u0 : Uri)
    (t : UriHostType) (src : TextRange) (moc : Bool)
    (hm : (applyNew env u0 t src moc).ret = .mallocErr) :
    (applyNew env u0 t src moc).uri.hostText = u0.hostText ∧
    (applyNew env u0 t src moc).uri.hostData = u0.hostData ∧
    (applyNew env u0 t src moc).uri.absolutePath = u0.absolutePath ∧
    (applyNew env u0 t src moc).uri.owner = u0.owner := by
  revert hm
  unfold applyNew
  cases h : env.copyRange src
  · intro _; exact ⟨rfl, rfl, rfl, rfl⟩
  · cases t
    · cases h4 : env.mallocIp4
      · intro _; exact ⟨rfl, rfl, rfl, rfl⟩
      · intro hm; exact absurd hm (by simp)
    · cases h6 : env.mallocIp6
      · intro _; exact ⟨rfl, rfl, rfl, rfl⟩
      · cases hp : env.parseIp6 (env.read src)
        · intro _; exact ⟨rfl, rfl, rfl, rfl⟩
        · intro hm; exact absurd hm (by simp)
    · intro hm; exact absurd hm (by simp)
    · intro hm; exact absurd hm (by simp)

theorem removeHost_mallocErr_fields (env : Collab) (uri : Uri)
    (hpath : EnsurePathTouchesOnlyPath env)
    (hm : (removeHost env uri).ret = .mallocErr) :
    (removeHost env uri).uri.hostText = uri.hostText ∧
    (removeHost env uri).uri.hostData = uri.hostData ∧
    (removeHost env uri).uri.absolutePath = uri.absolutePath ∧
    (removeHost env uri).uri.owner = uri.owner := by
  refine ⟨?_, ?_, ?_, removeHost_owner env uri hpath⟩ <;>
  · revert hm
    unfold removeHost
    split
    · split
      · intro hm; exact absurd hm (by simp)
      · intro _; rfl
    · intro hm; exact absurd hm (by simp)

/-- C1 (corrected): every call that fails with the out-of-memory error
leaves `hostText`, `hostData`, `absolutePath` and `owner` bit-identical
to their values at the transactional snapshot; that snapshot state is the
pre-call URI except when the ownership promoter had already run
successfully before the failing step, in which case the completed
promotion survives (in particular `owner` may have turned true).  The
path resolver is assumed to obey its spec contract of mutating only the
path. -/
theorem setHost_oom_atomicity (env : Collab) (uri : Uri)
    (t : UriHostType) (first afterLast : Ptr)
    (hpath : EnsurePathTouchesOnlyPath env)
    (hm : (InternalSetHostMm env uri t first afterLast).ret
      = .mallocErr) :
    ∃ u1 : Uri,
      (u1 = uri ∨
        (uri.owner = false ∧ first ≠ none ∧
          env.makeOwner uri = some u1)) ∧
      (InternalSetHostMm env uri t first afterLast).uri.hostText
        = u1.hostText ∧
      (InternalSetHostMm env uri t first afterLast).uri.hostData
        = u1.hostData ∧
      (InternalSetHostMm env uri t first afterLast).uri.absolutePath
        = u1.absolutePath ∧
      (InternalSetHostMm env uri t first afterLast).uri.owner
        = u1.owner := by
  rcases first with _ | f
  · rcases afterLast with _ | g
    · cases hmv : env.memValid
      · rw [setHost_step_memFail env uri t none none hmv] at hm
        exact absurd hm (by simp)
      · cases hui : uri.userInfo.first
        · cases hpt : uri.portText.first
          · rw [setHost_step_remove env uri t hmv hui hpt] at hm ⊢
            exact ⟨uri, Or.inl rfl,
                   removeHost_mallocErr_fields env uri hpath hm⟩
          · rw [setHost_step_portSet env uri t hmv hui (by simp [hpt])]
              at hm
            exact absurd hm (by simp)
        · rw [setHost_step_userInfoSet env uri t hmv (by simp [hui])] at hm
          exact absurd hm (by simp)
    · rw [setHost_step_mismatch env uri t none (some g) rfl] at hm
      exact absurd hm (by simp)
  · rcases afterLast with _ | g
    · rw [setHost_step_mismatch env uri t (some f) none rfl] at hm
      exact absurd hm (by simp)
    cases hmv : env.memValid
    · rw [setHost_step_memFail env uri t (some f) (some g) hmv] at hm
      exact absurd hm (by simp)
    cases hv : validateNew env t (env.read ⟨some f, some g⟩)
    · cases how : uri.owner
      · cases hmo : env.makeOwner uri
        · rw [setHost_step_promoteFail env uri t f g hmv hv how hmo]
            at hm ⊢
          exact ⟨uri, Or.inl rfl, rfl, rfl, rfl, rfl⟩
        · rename_i u1
          rw [setHost_step_promoteApply env uri u1 t f g hmv hv how hmo]
            at hm ⊢
          exact ⟨u1, Or.inr ⟨rfl, by simp, rfl⟩,
                 applyNew_mallocErr_fields env u1 t _ true hm⟩
      · rw [setHost_step_ownedApply env uri t f g hmv hv how] at hm ⊢
        exact ⟨uri, Or.inl rfl,
               applyNew_mallocErr_fields env uri t _ false hm⟩
    · rename_i e
      rw [setHost_step_validatorFail env uri t f g e hmv hv] at hm ⊢
      exact ⟨uri, Or.inl rfl, rfl, rfl, rfl, rfl⟩

/-- C1 counterexample: with a promoter that succeeds (the URI has no
ranges to re-back, so promotion just sets the owner flag) and a range
materializer whose allocation then fails, the engine reports the
out-of-memory error but the URI's `owner` flag is now `true` although it
was `false` immediately before the call — so the failed call's fields are
not bit-identical to their pre-call values as the claim states. -/
theorem setHost_oom_atomicity_counterexample :
    (InternalSetHostMm envCopyFail emptyUri .regName (some 10)
        (some 12)).ret = .mallocErr ∧
    emptyUri.owner = false ∧
    (InternalSetHostMm envCopyFail emptyUri .regName (some 10)
        (some 12)).uri.owner = true := by
  decide

/-- C1 witness: the amended theorem applied to the counterexample call:
the fields equal those of the promoted URI (`emptyUri` with
`owner := true`). -/
theorem setHost_oom_atomicity_witness :
    (InternalSetHostMm envCopyFail emptyUri .regName (some 10)
        (some 12)).ret = .mallocErr ∧
    ∃ u1 : Uri,
      (u1 = emptyUri ∨
        (emptyUri.owner = false ∧ (some 10 : Ptr) ≠ none ∧
          envCopyFail.makeOwner emptyUri = some u1)) ∧
      (InternalSetHostMm envCopyFail emptyUri .regName (some 10)
          (some 12)).uri.hostText = u1.hostText ∧
      (InternalSetHostMm envCopyFail emptyUri .regName (some 10)
          (some 12)).uri.hostData = u1.hostData ∧
      (InternalSetHostMm envCopyFail emptyUri .regName (some 10)
          (some 12)).uri.absolutePath = u1.absolutePath ∧
      (InternalSetHostMm envCopyFail emptyUri .regName (some 10)
          (some 12)).uri.owner = u1.owner :=
  ⟨by decide,
   setHost_oom_atomicity envCopyFail emptyUri .regName (some 10) (some 12)
     (fun _ => ⟨rfl, rfl, rfl, rfl, rfl, rfl, rfl⟩) (by decide)⟩

end UriSetHost
